import Mathlib

/-!
# STL viewer: camera, loader and renderer

A shallow embedding of `src/main.cpp`.

Scalars: the program computes in single precision (`float`).  The
definitions below are written over an arbitrary scalar type `α` and use only
its operations (`+`, `-`, `*`, unary minus, `<`, decimal literals), so the same
definition can be read in two arithmetics:

* exact arithmetic, `α` a linearly ordered field (`ℚ` to evaluate on concrete
  inputs, `ℝ` for the trigonometric view computation), where `(float)x` is the
  identity and no operation rounds;
* single precision, `α := F32`, where every operation and every literal is
  rounded to the nearest value with a 24-bit significand, ties to even.
  Infinities, NaN and the exponent range are not modelled.

Global variables of the program become the fields of `Camera`; each callback
becomes a function from the old state (and the event arguments) to the new
state.  Values the program obtains from the window system
(`glfwGetCursorPos`, `glfwGetKey`) are extra arguments of the function that
reads them.
-/

namespace StlViewer

/-! ## Library primitives used by the program -/

/-- The `std::max(a, b)` of the C++ library: `(a < b) ? b : a`. -/
def stdMax {α : Type} [LT α] [∀ a b : α, Decidable (a < b)] (a b : α) : α :=
  if a < b then b else a

/-- The `std::min(a, b)` of the C++ library: `(b < a) ? b : a`. -/
def stdMin {α : Type} [LT α] [∀ a b : α, Decidable (a < b)] (a b : α) : α :=
  if b < a then b else a

/-- The value of `GLFW_MOUSE_BUTTON_LEFT` in `GLFW/glfw3.h`. -/
def GLFW_MOUSE_BUTTON_LEFT : Int := 0

/-- The value of `GLFW_PRESS` in `GLFW/glfw3.h`. -/
def GLFW_PRESS : Int := 1

/-- The value of `GLFW_RELEASE` in `GLFW/glfw3.h`. -/
def GLFW_RELEASE : Int := 0

/-- A `glm::vec3`. -/
structure Vec3 (α : Type) where
  x : α
  y : α
  z : α
deriving DecidableEq, Repr

/-! ## Camera globals (main.cpp, lines 70-75) -/

/-- The camera globals of the program, as one record. -/
structure Camera (α : Type) where
  cameraDistance : α
  cameraYaw : α
  cameraPitch : α
  lastX : α
  lastY : α
  rotating : Bool
  cameraTarget : Vec3 α
deriving DecidableEq, Repr

section Handlers

variable {α : Type} [Add α] [Sub α] [Mul α] [Neg α] [OfScientific α] [LT α]
  [∀ a b : α, Decidable (a < b)]

/-- The initialisers of the camera globals. -/
def cameraInit : Camera α :=
  { cameraDistance := 5.0
    cameraYaw := 0.0
    cameraPitch := 0.0
    lastX := 0.0
    lastY := 0.0
    rotating := false
    cameraTarget := ⟨0.0, 0.0, 0.0⟩ }

/-! ## Input callbacks (main.cpp, lines 78-109) -/

/-- The function `mouse_button_callback`; `xpos`, `ypos` are what
`glfwGetCursorPos` reports when the callback runs. -/
def mouse_button_callback (s : Camera α) (button action _mods : Int)
    (xpos ypos : α) : Camera α :=
  if button = GLFW_MOUSE_BUTTON_LEFT then
    if action = GLFW_PRESS then
      { s with rotating := true, lastX := xpos, lastY := ypos }
    else if action = GLFW_RELEASE then
      { s with rotating := false }
    else s
  else s

/-- The function `cursor_position_callback`. -/
def cursor_position_callback (s : Camera α) (xpos ypos : α) : Camera α :=
  if s.rotating then
    let xoffset := xpos - s.lastX
    let yoffset := ypos - s.lastY
    let s1 := { s with lastX := xpos, lastY := ypos }
    let s2 := { s1 with cameraYaw := s1.cameraYaw + xoffset * 0.3 }
    let s3 := { s2 with cameraPitch := s2.cameraPitch + yoffset * 0.3 }
    { s3 with cameraPitch := stdMax (-89.0) (stdMin 89.0 s3.cameraPitch) }
  else s

/-- The function `scroll_callback`. -/
def scroll_callback (s : Camera α) (_xoffset yoffset : α) : Camera α :=
  let s1 := { s with cameraDistance := s.cameraDistance - yoffset * 0.5 }
  { s1 with cameraDistance := stdMax 1.0 s1.cameraDistance }

/-! ## Keyboard pan (main.cpp, lines 144-149) -/

/-- The constant `panSpeed` of the main loop. -/
def panSpeed : α := 0.05

/-- The four `if (glfwGetKey(window, KEY) == GLFW_PRESS)` statements of one
frame; `keyW`, `keyS`, `keyA`, `keyD` are the four results of `glfwGetKey`. -/
def panStep (keyW keyS keyA keyD : Int) (s : Camera α) : Camera α :=
  let t0 := s.cameraTarget
  let t1 := if keyW = GLFW_PRESS then { t0 with z := t0.z - panSpeed } else t0
  let t2 := if keyS = GLFW_PRESS then { t1 with z := t1.z + panSpeed } else t1
  let t3 := if keyA = GLFW_PRESS then { t2 with x := t2.x - panSpeed } else t2
  let t4 := if keyD = GLFW_PRESS then { t3 with x := t3.x + panSpeed } else t3
  { s with cameraTarget := t4 }

/-! ## Event sequences -/

/-- What can change the camera state: the three callbacks and the pan step of
a frame, each with its arguments. -/
inductive Event (α : Type) where
  | mouseButton (button action mods : Int) (xpos ypos : α)
  | cursorPos (xpos ypos : α)
  | scroll (xoffset yoffset : α)
  | pan (keyW keyS keyA keyD : Int)
deriving DecidableEq, Repr

/-- One event applied to the camera state. -/
def step (s : Camera α) : Event α → Camera α
  | .mouseButton button action mods xpos ypos =>
      mouse_button_callback s button action mods xpos ypos
  | .cursorPos xpos ypos => cursor_position_callback s xpos ypos
  | .scroll xoffset yoffset => scroll_callback s xoffset yoffset
  | .pan keyW keyS keyA keyD => panStep keyW keyS keyA keyD s

/-- A finite sequence of events applied in order. -/
def run (s : Camera α) (evs : List (Event α)) : Camera α :=
  evs.foldl step s

/-- Whether an event is a scroll event. -/
def Event.isScroll : Event α → Bool
  | .scroll _ _ => true
  | _ => false

end Handlers

/-- The pitch bound, in exact arithmetic. -/
def PitchOk {α : Type} [LinearOrderedField α] (s : Camera α) : Prop :=
  -89 ≤ s.cameraPitch ∧ s.cameraPitch ≤ 89

/-- The distance bound, in exact arithmetic. -/
def DistanceOk {α : Type} [LinearOrderedField α] (s : Camera α) : Prop :=
  1 ≤ s.cameraDistance

/-- The pitch bound, with the comparison and the literals of the program:
the pitch is `-89.0f`, or `89.0f`, or strictly between the two. -/
def PitchWithin {α : Type} [Neg α] [OfScientific α] [LT α] (s : Camera α) : Prop :=
  s.cameraPitch = -89.0 ∨ s.cameraPitch = 89.0 ∨
    (-89.0 < s.cameraPitch ∧ s.cameraPitch < 89.0)

/-- The distance bound, with the comparison and the literal of the program:
the distance is `1.0f` or above it. -/
def DistanceWithin {α : Type} [OfScientific α] [LT α] (s : Camera α) : Prop :=
  s.cameraDistance = 1.0 ∨ 1.0 < s.cameraDistance

/-! ## Model loader (main.cpp, lines 16-39) -/

/-- The `Vertex` struct. -/
structure Vertex (α : Type) where
  x : α
  y : α
  z : α
deriving DecidableEq, Repr

/-- An `aiVector3D` of the import library. -/
structure aiVector3D (α : Type) where
  x : α
  y : α
  z : α
deriving DecidableEq, Repr

/-- An `aiMesh` of the import library, reduced to what the loader reads: the
array `mVertices`; `mNumVertices` is its length. -/
structure aiMesh (α : Type) where
  mVertices : List (aiVector3D α)
deriving DecidableEq, Repr

/-- The field `mNumVertices` of an `aiMesh`. -/
def aiMesh.mNumVertices {α : Type} (mesh : aiMesh α) : Nat :=
  mesh.mVertices.length

/-- An `aiScene` of the import library, reduced to its array of meshes. -/
structure aiScene (α : Type) where
  mMeshes : List (aiMesh α)
deriving DecidableEq, Repr

/-- The method `aiScene::HasMeshes`: the mesh array is present and not empty. -/
def aiScene.HasMeshes {α : Type} (scene : aiScene α) : Bool :=
  !scene.mMeshes.isEmpty

/-- The braced initialiser `{ v.x, v.y, v.z }` of the loop body of `loadSTL`:
the `Vertex` with the coordinates of an imported position. -/
def Vertex.ofPosition {α : Type} (v : aiVector3D α) : Vertex α :=
  { x := v.x, y := v.y, z := v.z }

/-- The loop `for (unsigned int i = 0; i < mesh->mNumVertices; ++i)` of
`loadSTL`, entered at index `i` with the vector `vertices` built so far;
`push_back` appends at the end. -/
def loadSTL.loop {α : Type} (mesh : aiMesh α) (i : Nat)
    (vertices : List (Vertex α)) : List (Vertex α) :=
  if h : i < mesh.mNumVertices then
    let v := mesh.mVertices.get ⟨i, h⟩
    loadSTL.loop mesh (i + 1) (vertices ++ [Vertex.ofPosition v])
  else vertices
termination_by mesh.mNumVertices - i

/-- The function `loadSTL`; `scene` is what `importer.ReadFile` yields for the
path (`none` is the null pointer).  The result is what was written to
`std::cerr` and the returned vector. -/
def loadSTL {α : Type} (scene : Option (aiScene α)) :
    List String × List (Vertex α) :=
  let vertices : List (Vertex α) := []
  match scene with
  | none => (["Failed to load STL file\n"], vertices)
  | some sc =>
    if !sc.HasMeshes then (["Failed to load STL file\n"], vertices)
    else
      match sc.mMeshes with
      | [] => ([], vertices) -- not reached: `HasMeshes` holds
      | mesh :: _ => ([], loadSTL.loop mesh 0 vertices)

/-! ## Renderer (main.cpp, lines 41-68) -/

/-- The enum `RenderMode`. -/
inductive RenderMode where
  | SHADED
  | WIREFRAME
  | BOTH
deriving DecidableEq, Repr

/-- The capabilities the program passes to `glEnable` and `glDisable`. -/
inductive GLCap where
  | GL_DEPTH_TEST
  | GL_COLOR_MATERIAL
  | GL_LIGHTING
  | GL_LIGHT0
deriving DecidableEq, Repr

/-- The polygon rasterisation modes the program passes to `glPolygonMode`. -/
inductive GLPolygonMode where
  | GL_FILL
  | GL_LINE
deriving DecidableEq, Repr

/-- The graphics commands `drawModel` issues.  `glPolygonMode` is always
called for `GL_FRONT_AND_BACK` and `glBegin` always with `GL_TRIANGLES`. -/
inductive GLCmd (α : Type) where
  | glPolygonMode (mode : GLPolygonMode)
  | glEnable (cap : GLCap)
  | glDisable (cap : GLCap)
  | glColor3f (r g b : α)
  | glBegin
  | glVertex3f (x y z : α)
  | glEnd
deriving DecidableEq, Repr

/-- One `for (const auto& v : vertices) glVertex3f(v.x, v.y, v.z);` loop. -/
def submitVertices {α : Type} (vertices : List (Vertex α)) : List (GLCmd α) :=
  vertices.map fun v => GLCmd.glVertex3f v.x v.y v.z

section Renderer

variable {α : Type} [OfScientific α]

/-- The function `drawModel`, as the commands it issues, in order. -/
def drawModel (vertices : List (Vertex α)) (mode : RenderMode) : List (GLCmd α) :=
  (if mode = RenderMode.SHADED ∨ mode = RenderMode.BOTH then
    [GLCmd.glPolygonMode GLPolygonMode.GL_FILL,
     GLCmd.glEnable GLCap.GL_LIGHTING,
     GLCmd.glColor3f 0.8 0.8 0.8,
     GLCmd.glBegin]
    ++ submitVertices vertices ++
    [GLCmd.glEnd]
  else [])
  ++
  (if mode = RenderMode.WIREFRAME ∨ mode = RenderMode.BOTH then
    [GLCmd.glDisable GLCap.GL_LIGHTING,
     GLCmd.glPolygonMode GLPolygonMode.GL_LINE,
     GLCmd.glColor3f 0.1 1.0 0.1,
     GLCmd.glBegin]
    ++ submitVertices vertices ++
    [GLCmd.glEnd,
     GLCmd.glPolygonMode GLPolygonMode.GL_FILL]
  else [])

end Renderer

/-- One triangle-list submission (a `glBegin(GL_TRIANGLES)` ... `glEnd()`
group): the pipeline state it was made under and its vertices, in order. -/
structure Submission (α : Type) where
  polygonMode : GLPolygonMode
  lighting : Bool
  color : Vec3 α
  vertices : List (Vertex α)
deriving DecidableEq, Repr

/-- The part of the graphics pipeline state `drawModel` touches: the lighting
bit, the polygon mode, the current colour, the vertices given since an open
`glBegin` (`none` outside a group), and the submissions completed so far. -/
structure GLState (α : Type) where
  lighting : Bool
  polygonMode : GLPolygonMode
  color : Vec3 α
  current : Option (List (Vertex α))
  submitted : List (Submission α)
deriving DecidableEq, Repr

/-- The effect of one graphics command on the pipeline state. -/
def GLState.exec {α : Type} (st : GLState α) : GLCmd α → GLState α
  | .glPolygonMode mode => { st with polygonMode := mode }
  | .glEnable cap => if cap = GLCap.GL_LIGHTING then { st with lighting := true } else st
  | .glDisable cap => if cap = GLCap.GL_LIGHTING then { st with lighting := false } else st
  | .glColor3f r g b => { st with color := ⟨r, g, b⟩ }
  | .glBegin => { st with current := some [] }
  | .glVertex3f x y z =>
      { st with current := st.current.map fun vs => vs ++ [{ x := x, y := y, z := z }] }
  | .glEnd =>
      match st.current with
      | none => st
      | some vs =>
          { st with
            current := none
            submitted := st.submitted ++
              [{ polygonMode := st.polygonMode, lighting := st.lighting,
                 color := st.color, vertices := vs }] }

/-- The pipeline state after a list of commands. -/
def GLState.execAll {α : Type} (st : GLState α) (cmds : List (GLCmd α)) : GLState α :=
  cmds.foldl GLState.exec st

/-- The pipeline states a list of commands goes through: the entry state,
then the state after each command. -/
def GLState.trace {α : Type} (st : GLState α) : List (GLCmd α) → List (GLState α)
  | [] => [st]
  | c :: cs => st :: GLState.trace (st.exec c) cs

/-! ## Application state and the "Load STL" menu item (main.cpp, lines 137-161) -/

/-- The locals `model`, `loaded` and `renderMode` of `main`. -/
structure App (α : Type) where
  model : List (Vertex α)
  loaded : Bool
  renderMode : RenderMode
deriving DecidableEq, Repr

/-- The initial values of the locals of `main`. -/
def appInit {α : Type} : App α :=
  { model := [], loaded := false, renderMode := RenderMode.SHADED }

/-- The body of `if (ImGui::MenuItem("Load STL"))`: `model = loadSTL(...);
loaded = true;`; `scene` is what the importer yields for the fixed path. -/
def menuLoadSTL {α : Type} (scene : Option (aiScene α)) (app : App α) : App α :=
  let app1 := { app with model := (loadSTL scene).2 }
  { app1 with loaded := true }

/-! ## View computation (main.cpp, lines 197-205) -/

section View

variable {α : Type} [Field α]

/-- The `glm::radians` of the maths library, `degrees * (π / 180)`; the
number π is the argument `pi`. -/
def radians (pi degrees : α) : α :=
  degrees * (pi / 180)

/-- Componentwise difference of two `glm::vec3`. -/
def Vec3.sub (a b : Vec3 α) : Vec3 α :=
  ⟨a.x - b.x, a.y - b.y, a.z - b.z⟩

/-- A `glm::vec3` times a scalar. -/
def Vec3.scale (a : Vec3 α) (k : α) : Vec3 α :=
  ⟨a.x * k, a.y * k, a.z * k⟩

/-- The `glm::dot` of the maths library. -/
def Vec3.dot (a b : Vec3 α) : α :=
  a.x * b.x + a.y * b.y + a.z * b.z

/-- The `glm::cross` of the maths library. -/
def Vec3.cross (a b : Vec3 α) : Vec3 α :=
  ⟨a.y * b.z - b.y * a.z, a.z * b.x - b.z * a.x, a.x * b.y - b.x * a.y⟩

/-- The `glm::normalize` of the maths library, `v * inversesqrt(dot(v, v))`;
the square root is the argument `sqrt`. -/
def Vec3.normalize (sqrt : α → α) (v : Vec3 α) : Vec3 α :=
  v.scale (1 / sqrt (v.dot v))

/-- The vector `direction` of the main loop; `cos`, `sin` and `pi` are the
library functions and the constant the program uses. -/
def viewDirection (cos sin : α → α) (pi : α) (s : Camera α) : Vec3 α :=
  let yawRad := radians pi s.cameraYaw
  let pitchRad := radians pi s.cameraPitch
  ⟨cos yawRad * cos pitchRad, sin pitchRad, sin yawRad * cos pitchRad⟩

/-- The vector `cameraPos` of the main loop:
`cameraTarget - direction * cameraDistance`. -/
def cameraPos (cos sin : α → α) (pi : α) (s : Camera α) : Vec3 α :=
  s.cameraTarget.sub ((viewDirection cos sin pi s).scale s.cameraDistance)

/-- The up vector the program passes to `glm::lookAt`. -/
def upVector : Vec3 α :=
  ⟨0.0, 1.0, 0.0⟩

/-- The first vector `glm::lookAt(eye, center, up)` builds:
`f = normalize(center - eye)`. -/
def lookAtF (sqrt : α → α) (eye center : Vec3 α) : Vec3 α :=
  (center.sub eye).normalize sqrt

/-- The vector `glm::lookAt(eye, center, up)` normalises second:
`cross(f, up)`. -/
def lookAtSide (sqrt : α → α) (eye center up : Vec3 α) : Vec3 α :=
  (lookAtF sqrt eye center).cross up

end View

/-! ## Single precision -/

/-- A finite single-precision value, the number `m * 2 ^ e`.  The operations
below return the canonical form: `m = 0` and `e = 0`, or `2 ^ 23 ≤ |m| < 2 ^ 24`. -/
structure F32 where
  m : Int
  e : Int
deriving DecidableEq, Repr

/-- The number of binary digits of `n`, for `n ≤ fuel`. -/
def F32.bitLength : Nat → Nat → Nat
  | 0, _ => 0
  | fuel + 1, n => if n = 0 then 0 else F32.bitLength fuel (n / 2) + 1

/-- The number `M * 2 ^ E` rounded to a 24-bit significand, to nearest, ties to
even (the default rounding of single-precision arithmetic). -/
def F32.round (M E : Int) : F32 :=
  let a := M.natAbs
  if a = 0 then ⟨0, 0⟩
  else
    let L := F32.bitLength a a
    if L ≤ 24 then ⟨M * 2 ^ (24 - L), E - ((24 - L : Nat) : Int)⟩
    else
      let k := L - 24
      let q := a / 2 ^ k
      let r := a % 2 ^ k
      let half := 2 ^ (k - 1)
      let q1 := if half < r ∨ (r = half ∧ q % 2 = 1) then q + 1 else q
      let q2 := if q1 = 2 ^ 24 then 2 ^ 23 else q1
      let E2 := if q1 = 2 ^ 24 then E + (k : Int) + 1 else E + (k : Int)
      ⟨if M < 0 then -(q2 : Int) else (q2 : Int), E2⟩

/-- Single-precision addition: the exact sum, rounded. -/
def F32.add (x y : F32) : F32 :=
  let e := min x.e y.e
  F32.round (x.m * 2 ^ (x.e - e).toNat + y.m * 2 ^ (y.e - e).toNat) e

/-- Single-precision negation (exact). -/
def F32.neg (x : F32) : F32 :=
  ⟨-x.m, x.e⟩

/-- Single-precision subtraction: the exact difference, rounded. -/
def F32.sub (x y : F32) : F32 :=
  F32.add x (F32.neg y)

/-- Single-precision multiplication: the exact product, rounded. -/
def F32.mul (x y : F32) : F32 :=
  F32.round (x.m * y.m) (x.e + y.e)

/-- The order of the numbers denoted. -/
def F32.lt (x y : F32) : Prop :=
  x.m * 2 ^ (x.e - min x.e y.e).toNat < y.m * 2 ^ (y.e - min x.e y.e).toNat

/-- A decimal literal `mantissa * 10 ^ (± decimalExponent)` with the suffix `f`:
the nearest single-precision value.  For a negative exponent the quotient is
taken with 26 or more extra bits and a sticky bit for the remainder. -/
def F32.ofScientific (mantissa : Nat) (exponentSign : Bool) (decimalExponent : Nat) : F32 :=
  if exponentSign then
    let q := 10 ^ decimalExponent
    let s := 26 + F32.bitLength q q
    let n := mantissa * 2 ^ s / q
    let sticky := if mantissa * 2 ^ s % q = 0 then 0 else 1
    F32.round ((2 * n + sticky : Nat) : Int) (-((s + 1 : Nat) : Int))
  else F32.round ((mantissa * 10 ^ decimalExponent : Nat) : Int) 0

/-- The rational number a single-precision value denotes. -/
def F32.toRat (x : F32) : ℚ :=
  x.m * (2 : ℚ) ^ x.e

instance : Add F32 := ⟨F32.add⟩

instance : Sub F32 := ⟨F32.sub⟩

instance : Mul F32 := ⟨F32.mul⟩

instance : Neg F32 := ⟨F32.neg⟩

instance : LT F32 := ⟨F32.lt⟩

instance (x y : F32) : Decidable (x < y) :=
  inferInstanceAs (Decidable
    (x.m * 2 ^ (x.e - min x.e y.e).toNat < y.m * 2 ^ (y.e - min x.e y.e).toNat))

instance : OfScientific F32 := ⟨F32.ofScientific⟩

instance (n : Nat) : OfNat F32 n := ⟨F32.round (n : Int) 0⟩

/-! # Theorems -/

/-! ## Camera, in any arithmetic: drag gating, the two clamps -/

theorem mouse_button_pitch {α : Type} (s : Camera α) (button action mods : Int)
    (xpos ypos : α) :
    (mouse_button_callback s button action mods xpos ypos).cameraPitch = s.cameraPitch := by
  unfold mouse_button_callback
  split_ifs <;> rfl

theorem mouse_button_distance {α : Type} (s : Camera α) (button action mods : Int)
    (xpos ypos : α) :
    (mouse_button_callback s button action mods xpos ypos).cameraDistance
      = s.cameraDistance := by
  unfold mouse_button_callback
  split_ifs <;> rfl

section ClampFacts

variable {α : Type} [Neg α] [OfScientific α] [LT α] [∀ a b : α, Decidable (a < b)]

/-- The clamp of `cursor_position_callback` returns a bound or a value
strictly between the bounds, whatever it is given and whatever `<` is. -/
theorem clamp_within (p : α) :
    stdMax (-89.0 : α) (stdMin 89.0 p) = -89.0 ∨
    stdMax (-89.0 : α) (stdMin 89.0 p) = 89.0 ∨
    (-89.0 < stdMax (-89.0 : α) (stdMin 89.0 p) ∧
      stdMax (-89.0 : α) (stdMin 89.0 p) < 89.0) := by
  unfold stdMax stdMin
  by_cases h1 : p < 89.0
  · rw [if_pos h1]
    by_cases h2 : (-89.0 : α) < p
    · rw [if_pos h2]
      exact Or.inr (Or.inr ⟨h2, h1⟩)
    · rw [if_neg h2]
      exact Or.inl rfl
  · rw [if_neg h1]
    by_cases h3 : (-89.0 : α) < 89.0
    · rw [if_pos h3]
      exact Or.inr (Or.inl rfl)
    · rw [if_neg h3]
      exact Or.inl rfl

end ClampFacts

/-- The clamp of `scroll_callback` returns the bound or a value above it,
whatever it is given and whatever `<` is. -/
theorem floor_within {α : Type} [OfScientific α] [LT α] [∀ a b : α, Decidable (a < b)]
    (d : α) :
    stdMax (1.0 : α) d = 1.0 ∨ 1.0 < stdMax (1.0 : α) d := by
  unfold stdMax
  by_cases h : (1.0 : α) < d
  · rw [if_pos h]
    exact Or.inr h
  · rw [if_neg h]
    exact Or.inl rfl

section AnyArithmetic

variable {α : Type} [Add α] [Sub α] [Mul α] [Neg α] [OfScientific α] [LT α]
  [∀ a b : α, Decidable (a < b)]

theorem cursor_pitch_dragging (s : Camera α) (xpos ypos : α) (h : s.rotating = true) :
    (cursor_position_callback s xpos ypos).cameraPitch
      = stdMax (-89.0) (stdMin 89.0 (s.cameraPitch + (ypos - s.lastY) * 0.3)) := by
  simp [cursor_position_callback, h]

theorem cursor_idle (s : Camera α) (xpos ypos : α) (h : s.rotating = false) :
    cursor_position_callback s xpos ypos = s := by
  simp [cursor_position_callback, h]

theorem cursor_distance (s : Camera α) (xpos ypos : α) :
    (cursor_position_callback s xpos ypos).cameraDistance = s.cameraDistance := by
  unfold cursor_position_callback
  split_ifs <;> rfl

/-- A predicate every event preserves holds after every event sequence. -/
theorem run_preserves (P : Camera α → Prop) (hP : ∀ s e, P s → P (step s e))
    (evs : List (Event α)) : ∀ s, P s → P (run s evs) := by
  induction evs with
  | nil => intro s hs; exact hs
  | cons e rest ih => intro s hs; exact ih (step s e) (hP s e hs)

theorem step_pitchWithin (s : Camera α) (e : Event α)
    (h : PitchWithin s) : PitchWithin (step s e) := by
  cases e with
  | mouseButton button action mods xpos ypos =>
      simpa [PitchWithin, step, mouse_button_pitch] using h
  | cursorPos xpos ypos =>
      cases hr : s.rotating with
      | false => simpa [step, cursor_idle s xpos ypos hr] using h
      | true =>
          simp only [PitchWithin, step, cursor_pitch_dragging s xpos ypos hr]
          exact clamp_within _
  | scroll xoffset yoffset => exact h
  | pan keyW keyS keyA keyD => exact h

theorem step_distanceWithin (s : Camera α) (e : Event α)
    (h : DistanceWithin s) : DistanceWithin (step s e) := by
  cases e with
  | mouseButton button action mods xpos ypos =>
      simpa [DistanceWithin, step, mouse_button_distance] using h
  | cursorPos xpos ypos => simpa [DistanceWithin, step, cursor_distance] using h
  | scroll xoffset yoffset => exact floor_within _
  | pan keyW keyS keyA keyD => exact h

/-- In any arithmetic in which the initial pitch `0.0f` is strictly between
the bounds and the initial distance `5.0f` above `1.0f`, both bounds hold
after every event sequence from the initial state. -/
theorem run_within (hp : (-89.0 : α) < 0.0 ∧ (0.0 : α) < 89.0) (hd : (1.0 : α) < 5.0)
    (evs : List (Event α)) :
    PitchWithin (run (cameraInit : Camera α) evs) ∧
    DistanceWithin (run (cameraInit : Camera α) evs) :=
  ⟨run_preserves PitchWithin step_pitchWithin evs cameraInit (Or.inr (Or.inr hp)),
    run_preserves DistanceWithin step_distanceWithin evs cameraInit (Or.inr hd)⟩

/-- C4. Drag gating, in any arithmetic: in a state with `rotating = false` the
pointer-move handler changes no field of the camera state, whatever the
pointer position; the initial state is such a state, and so is every state
right after a release of the primary button. -/
theorem drag_gating :
    (∀ (s : Camera α) (xpos ypos : α), s.rotating = false →
      cursor_position_callback s xpos ypos = s) ∧
    (∀ xpos ypos : α, cursor_position_callback cameraInit xpos ypos = cameraInit) ∧
    (∀ (s : Camera α) (mods : Int) (cx cy xpos ypos : α),
      cursor_position_callback
          (mouse_button_callback s GLFW_MOUSE_BUTTON_LEFT GLFW_RELEASE mods cx cy) xpos ypos
        = mouse_button_callback s GLFW_MOUSE_BUTTON_LEFT GLFW_RELEASE mods cx cy) := by
  refine ⟨cursor_idle, fun xpos ypos => cursor_idle _ _ _ rfl, ?_⟩
  intro s mods cx cy xpos ypos
  exact cursor_idle _ _ _ rfl

end AnyArithmetic

/-! ## Camera, in exact arithmetic -/

section CameraFacts

variable {α : Type} [LinearOrderedField α]

theorem stdMax_eq_max (a b : α) : stdMax a b = max a b := by
  unfold stdMax
  rcases lt_or_le a b with h | h
  · rw [if_pos h, max_eq_right h.le]
  · rw [if_neg (not_lt.mpr h), max_eq_left h]

theorem stdMin_eq_min (a b : α) : stdMin a b = min a b := by
  unfold stdMin
  rcases lt_or_le b a with h | h
  · rw [if_pos h, min_eq_right h.le]
  · rw [if_neg (not_lt.mpr h), min_eq_left h]

/-- The clamp written as the program does, `max(-89, min(89, p))`, is the
clamp written `min(89, max(-89, p))`. -/
theorem clamp_comm (p : α) :
    stdMax (-89.0 : α) (stdMin 89.0 p) = min 89 (max (-89) p) := by
  rw [stdMax_eq_max, stdMin_eq_min, max_min_distrib_left]
  norm_num

theorem pitchOk_of_within (s : Camera α) (h : PitchWithin s) : PitchOk s := by
  unfold PitchOk
  rcases h with h | h | ⟨h1, h2⟩
  · rw [h]; norm_num
  · rw [h]; norm_num
  · constructor
    · have := h1.le
      norm_num at this
      exact this
    · have := h2.le
      norm_num at this
      exact this

theorem distanceOk_of_within (s : Camera α) (h : DistanceWithin s) : DistanceOk s := by
  unfold DistanceOk
  rcases h with h | h
  · rw [h]; norm_num
  · have := h.le
    norm_num at this
    exact this

/-- Both bounds after every event sequence from the initial state. -/
theorem run_ok (evs : List (Event α)) :
    PitchOk (run (cameraInit : Camera α) evs) ∧
    DistanceOk (run (cameraInit : Camera α) evs) := by
  have h := run_within (by norm_num : (-89.0 : α) < 0.0 ∧ (0.0 : α) < 89.0)
    (by norm_num : (1.0 : α) < 5.0) evs
  exact ⟨pitchOk_of_within _ h.1, distanceOk_of_within _ h.2⟩

theorem scroll_distance_ge (s : Camera α) (xoffset yoffset : α) :
    1 ≤ (scroll_callback s xoffset yoffset).cameraDistance := by
  simp only [scroll_callback, stdMax_eq_max]
  norm_num

/-- C1. Pitch clamp invariant: from the initial camera state, after every
event of every finite sequence of pointer-button, pointer-move, scroll and pan
events, with any arguments, `-89 ≤ cameraPitch ≤ 89`; and a pointer-move while
dragging leaves the pitch in that range whatever the state and the pointer
position, so also when `cameraPitch + 0.3 * yoffset` is 500 or -500. -/
theorem pitch_clamp_invariant :
    (∀ (evs : List (Event α)) (k : ℕ),
      -89 ≤ (run cameraInit (evs.take k)).cameraPitch ∧
      (run cameraInit (evs.take k)).cameraPitch ≤ 89) ∧
    (∀ (s : Camera α) (xpos ypos : α), s.rotating = true →
      -89 ≤ (cursor_position_callback s xpos ypos).cameraPitch ∧
      (cursor_position_callback s xpos ypos).cameraPitch ≤ 89) := by
  refine ⟨fun evs k => (run_ok (evs.take k)).1, fun s xpos ypos h => ?_⟩
  have hw : PitchWithin (cursor_position_callback s xpos ypos) := by
    simp only [PitchWithin, cursor_pitch_dragging s xpos ypos h]
    exact clamp_within _
  exact pitchOk_of_within _ hw

/-- C2. Distance clamp invariant: from the initial camera state, after every
event of every finite sequence of events, with any arguments,
`cameraDistance ≥ 1`; after a scroll event from any state whatever
`cameraDistance ≥ 1`; and there is no upper bound: for every `B` a sequence of
scroll events leads from the initial state to `cameraDistance > B`. -/
theorem distance_clamp_invariant :
    (∀ (evs : List (Event α)) (k : ℕ), 1 ≤ (run cameraInit (evs.take k)).cameraDistance) ∧
    (∀ (s : Camera α) (xoffset yoffset : α),
      1 ≤ (scroll_callback s xoffset yoffset).cameraDistance) ∧
    (∀ B : α, ∃ evs : List (Event α),
      (∀ e ∈ evs, e.isScroll = true) ∧ B < (run cameraInit evs).cameraDistance) := by
  refine ⟨fun evs k => (run_ok (evs.take k)).2, scroll_distance_ge, fun B => ?_⟩
  refine ⟨[Event.scroll 0 (-(2 * |B|))], ?_, ?_⟩
  · intro e he
    rw [List.mem_singleton] at he
    rw [he]
    rfl
  · simp only [run, List.foldl, step, scroll_callback, stdMax_eq_max, cameraInit]
    have h1 : (5.0 : α) - -(2 * |B|) * 0.5 = 5 + |B| := by norm_num; ring
    rw [h1]
    have h2 : B ≤ |B| := le_abs_self B
    exact lt_max_of_lt_right (by linarith)

/-- C3. Pointer-move while dragging: in a state with `rotating = true`, for
every pointer position `(xpos, ypos)`, the handler sets
`cameraYaw` to `cameraYaw + 0.3 * (xpos - lastX)` (no clamp, no wrap),
`cameraPitch` to `min 89 (max (-89) (cameraPitch + 0.3 * (ypos - lastY)))`,
`lastX` to `xpos`, `lastY` to `ypos`, and leaves `cameraDistance`,
`cameraTarget` and `rotating` as they were. -/
theorem cursor_position_dragging (s : Camera α) (xpos ypos : α)
    (h : s.rotating = true) :
    cursor_position_callback s xpos ypos =
      { cameraYaw := s.cameraYaw + 0.3 * (xpos - s.lastX)
        cameraPitch := min 89 (max (-89) (s.cameraPitch + 0.3 * (ypos - s.lastY)))
        lastX := xpos
        lastY := ypos
        cameraDistance := s.cameraDistance
        cameraTarget := s.cameraTarget
        rotating := s.rotating } := by
  simp only [cursor_position_callback, h, if_true, clamp_comm, mul_comm (0.3 : α)]

end CameraFacts

/-! ## Camera, in single precision -/

/-- The number a single-precision value denotes, over a common exponent. -/
theorem F32.toRat_eq_scaled (x : F32) (mn : Int) (h : mn ≤ x.e) :
    x.toRat = ((x.m * 2 ^ (x.e - mn).toNat : Int) : ℚ) * (2 : ℚ) ^ mn := by
  have ha : ((x.e - mn).toNat : Int) = x.e - mn := Int.toNat_of_nonneg (by omega)
  have h2 : (2 : ℚ) ≠ 0 := by norm_num
  unfold F32.toRat
  push_cast
  rw [mul_assoc, ← zpow_natCast, ha, ← zpow_add₀ h2]
  congr 2
  ring

/-- The order of single-precision values is the order of the numbers they
denote. -/
theorem F32.lt_iff_toRat (x y : F32) : x < y ↔ x.toRat < y.toRat := by
  have hx := F32.toRat_eq_scaled x (min x.e y.e) (min_le_left _ _)
  have hy := F32.toRat_eq_scaled y (min x.e y.e) (min_le_right _ _)
  have hpos : (0 : ℚ) < 2 ^ (min x.e y.e) := zpow_pos (by norm_num) _
  rw [hx, hy, mul_lt_mul_right hpos, Int.cast_lt]
  exact Iff.rfl

/-- Single-precision multiplication commutes. -/
theorem F32.mul_comm (x y : F32) : x * y = y * x := by
  show F32.mul x y = F32.mul y x
  unfold F32.mul
  rw [Int.mul_comm, Int.add_comm]

/-- In single precision too, the clamp as the program writes it,
`max(-89, min(89, p))`, is the clamp written `min(89, max(-89, p))`. -/
theorem F32.clamp_swap (p : F32) :
    stdMax (-89.0 : F32) (stdMin 89.0 p) = stdMin 89.0 (stdMax (-89.0) p) := by
  have hlo : F32.toRat (-89.0) = -89 := by
    have h : (-89.0 : F32) = ⟨-11665408, -17⟩ := by decide
    rw [h]
    norm_num [F32.toRat]
  have hhi : F32.toRat 89.0 = 89 := by
    have h : (89.0 : F32) = ⟨11665408, -17⟩ := by decide
    rw [h]
    norm_num [F32.toRat]
  unfold stdMax stdMin
  by_cases h1 : p < 89.0
  · by_cases h2 : (-89.0 : F32) < p
    · simp only [if_pos h1, if_pos h2]
    · have h3 : (-89.0 : F32) < 89.0 := by decide
      simp only [if_pos h1, if_neg h2, if_pos h3]
  · have h3 : (-89.0 : F32) < 89.0 := by decide
    have h2 : (-89.0 : F32) < p := by
      rw [F32.lt_iff_toRat] at h1 ⊢
      rw [hlo]
      rw [hhi] at h1
      linarith [not_lt.mp h1]
    simp only [if_neg h1, if_pos h2, if_pos h3]

/-- The statement C3 in the single-precision arithmetic of the program, every
operation rounded: with `rotating = true` the pointer-move handler leaves the
record C3 describes. -/
theorem cursor_position_dragging_single_precision (s : Camera F32) (xpos ypos : F32)
    (h : s.rotating = true) :
    cursor_position_callback s xpos ypos =
      { cameraYaw := s.cameraYaw + 0.3 * (xpos - s.lastX)
        cameraPitch := stdMin 89.0 (stdMax (-89.0) (s.cameraPitch + 0.3 * (ypos - s.lastY)))
        lastX := xpos
        lastY := ypos
        cameraDistance := s.cameraDistance
        cameraTarget := s.cameraTarget
        rotating := s.rotating } := by
  simp only [cursor_position_callback, h, if_true, F32.clamp_swap, F32.mul_comm (0.3 : F32)]

/-- C1 and C2 in the single-precision arithmetic of the program: from the
initial state, after every finite sequence of events with any single-precision
arguments, the number `cameraPitch` denotes is in `[-89, 89]` and the number
`cameraDistance` denotes is at least 1. -/
theorem clamp_bounds_single_precision (evs : List (Event F32)) :
    -89 ≤ F32.toRat (run (cameraInit : Camera F32) evs).cameraPitch ∧
    F32.toRat (run (cameraInit : Camera F32) evs).cameraPitch ≤ 89 ∧
    1 ≤ F32.toRat (run (cameraInit : Camera F32) evs).cameraDistance := by
  have hlo : F32.toRat (-89.0) = -89 := by
    have h : (-89.0 : F32) = ⟨-11665408, -17⟩ := by decide
    rw [h]
    norm_num [F32.toRat]
  have hhi : F32.toRat 89.0 = 89 := by
    have h : (89.0 : F32) = ⟨11665408, -17⟩ := by decide
    rw [h]
    norm_num [F32.toRat]
  have hone : F32.toRat 1.0 = 1 := by
    have h : (1.0 : F32) = ⟨8388608, -23⟩ := by decide
    rw [h]
    norm_num [F32.toRat]
  have h := run_within (by decide : (-89.0 : F32) < 0.0 ∧ (0.0 : F32) < 89.0)
    (by decide : (1.0 : F32) < 5.0) evs
  obtain ⟨hp, hd⟩ := h
  unfold PitchWithin at hp
  unfold DistanceWithin at hd
  have hpitch : -89 ≤ F32.toRat (run (cameraInit : Camera F32) evs).cameraPitch ∧
      F32.toRat (run (cameraInit : Camera F32) evs).cameraPitch ≤ 89 := by
    rcases hp with h | h | ⟨h1, h2⟩
    · rw [h, hlo]; norm_num
    · rw [h, hhi]; norm_num
    · rw [F32.lt_iff_toRat] at h1 h2
      rw [hlo] at h1
      rw [hhi] at h2
      exact ⟨h1.le, h2.le⟩
  refine ⟨hpitch.1, hpitch.2, ?_⟩
  rcases hd with h | h
  · rw [h, hone]
  · rw [F32.lt_iff_toRat, hone] at h
    exact h.le

section PanFacts

variable {α : Type} [Add α] [Sub α] [OfScientific α]

/-- One pan step with only W held, in any arithmetic: `cameraTarget.z` goes
down by `panSpeed`, nothing else changes. -/
theorem panStep_forward (s : Camera α) (keyS keyA keyD : Int)
    (hS : keyS ≠ GLFW_PRESS) (hA : keyA ≠ GLFW_PRESS) (hD : keyD ≠ GLFW_PRESS) :
    panStep GLFW_PRESS keyS keyA keyD s =
      { s with cameraTarget := { s.cameraTarget with z := s.cameraTarget.z - panSpeed } } := by
  simp [panStep, hS, hA, hD]

/-- In any arithmetic, `N` pan steps with only W held are `N` successive
subtractions of `panSpeed` from `cameraTarget.z`; nothing else changes. -/
theorem pan_forward_iterate (N : ℕ) (s : Camera α) (keyS keyA keyD : Int)
    (hS : keyS ≠ GLFW_PRESS) (hA : keyA ≠ GLFW_PRESS) (hD : keyD ≠ GLFW_PRESS) :
    (panStep GLFW_PRESS keyS keyA keyD)^[N] s =
      { s with cameraTarget :=
          { s.cameraTarget with z := (fun z => z - panSpeed)^[N] s.cameraTarget.z } } := by
  induction N generalizing s with
  | zero => rfl
  | succ n ih =>
      rw [Function.iterate_succ_apply, ih, panStep_forward s keyS keyA keyD hS hA hD,
        Function.iterate_succ_apply]

end PanFacts

/-- In exact arithmetic, `N` successive subtractions of `c` take off `c * N`. -/
theorem iterate_sub_eq {α : Type} [LinearOrderedField α] (c z : α) (N : ℕ) :
    (fun z => z - c)^[N] z = z - c * (N : α) := by
  induction N generalizing z with
  | zero => simp
  | succ n ih =>
      rw [Function.iterate_succ_apply, ih, Nat.cast_succ]
      ring

/-- C9, stated over exact arithmetic, with what single precision does
instead.  The pan step of a frame, run `N` times with W held and S, A, D not
held: in exact arithmetic (any linearly ordered field) it takes
`cameraTarget.z` down by exactly `0.05 * N` and changes nothing else of the
camera state; in single precision it is `N` successive rounded subtractions of
`0.05f` from `cameraTarget.z`, and again changes nothing else.  The step has
no time argument. -/
theorem pan_forward_accumulates (N : ℕ) (keyS keyA keyD : Int)
    (hS : keyS ≠ GLFW_PRESS) (hA : keyA ≠ GLFW_PRESS) (hD : keyD ≠ GLFW_PRESS) :
    (∀ (α : Type) [LinearOrderedField α] (s : Camera α),
      (panStep GLFW_PRESS keyS keyA keyD)^[N] s =
        { s with cameraTarget :=
            { s.cameraTarget with z := s.cameraTarget.z - 0.05 * (N : α) } }) ∧
    (∀ s : Camera F32,
      (panStep GLFW_PRESS keyS keyA keyD)^[N] s =
        { s with cameraTarget :=
            { s.cameraTarget with z := (fun z => z - 0.05)^[N] s.cameraTarget.z } }) := by
  constructor
  · intro α _ s
    rw [pan_forward_iterate N s keyS keyA keyD hS hA hD, iterate_sub_eq]
    rfl
  · intro s
    exact pan_forward_iterate N s keyS keyA keyD hS hA hD

/-- The rounding of the single-precision model on known values: the literals
`0.05f`, `0.3f`, `0.1f` and `89.0f` are the values with bit patterns
`0x3D4CCCCD`, `0x3E99999A`, `0x3DCCCCCD` and `0x42B20000`; `0.1f + 0.2f` is
`0.3f`; and the ties `2 ^ 24 + 1` and `2 ^ 24 + 3` go to the even neighbour. -/
theorem F32.known_values :
    (0.05 : F32) = ⟨13421773, -28⟩ ∧
    (0.3 : F32) = ⟨10066330, -25⟩ ∧
    (0.1 : F32) = ⟨13421773, -27⟩ ∧
    (89.0 : F32) = ⟨11665408, -17⟩ ∧
    (0.1 : F32) + 0.2 = 0.3 ∧
    (16777217 : F32) = ⟨8388608, 1⟩ ∧
    (16777219 : F32) = ⟨8388610, 1⟩ := by
  decide

/-- The seven values `cameraTarget.z` goes through from 0 with W held, in
single precision (about -0.05, -0.1, -0.15000001, -0.2, -0.25, -0.30000001,
-0.35000002). -/
theorem pan_forward_single_precision_steps :
    (List.range 8).map (fun n =>
      ((panStep GLFW_PRESS GLFW_RELEASE GLFW_RELEASE GLFW_RELEASE)^[n]
        (cameraInit : Camera F32)).cameraTarget.z)
      = [⟨0, 0⟩, ⟨-13421773, -28⟩, ⟨-13421773, -27⟩, ⟨-10066330, -26⟩,
         ⟨-13421773, -26⟩, ⟨-8388608, -25⟩, ⟨-10066330, -25⟩, ⟨-11744052, -25⟩] := by
  decide

/-- C9, as the claim has it, fails in the single-precision arithmetic of the
program.  From `cameraTarget.z = 0`, seven frames with W held leave
`-11744052 * 2 ^ (-25)` (about -0.35000002384), while `0 - 0.05f * 7` in
single precision is `-11744051 * 2 ^ (-25)` (about -0.34999999404): the two
are different numbers, and the number left is not `-7/20` either. -/
theorem pan_forward_single_precision :
    ((panStep GLFW_PRESS GLFW_RELEASE GLFW_RELEASE GLFW_RELEASE)^[7]
        (cameraInit : Camera F32)).cameraTarget.z = ⟨-11744052, -25⟩ ∧
    (cameraInit : Camera F32).cameraTarget.z - 0.05 * 7 = ⟨-11744051, -25⟩ ∧
    F32.toRat ((panStep GLFW_PRESS GLFW_RELEASE GLFW_RELEASE GLFW_RELEASE)^[7]
        (cameraInit : Camera F32)).cameraTarget.z
      ≠ F32.toRat ((cameraInit : Camera F32).cameraTarget.z - 0.05 * 7) ∧
    F32.toRat ((panStep GLFW_PRESS GLFW_RELEASE GLFW_RELEASE GLFW_RELEASE)^[7]
        (cameraInit : Camera F32)).cameraTarget.z
      ≠ F32.toRat (cameraInit : Camera F32).cameraTarget.z - (1 / 20) * 7 := by
  have h7 : ((panStep GLFW_PRESS GLFW_RELEASE GLFW_RELEASE GLFW_RELEASE)^[7]
      (cameraInit : Camera F32)).cameraTarget.z = ⟨-11744052, -25⟩ := by decide
  have hm : (cameraInit : Camera F32).cameraTarget.z - 0.05 * 7 = ⟨-11744051, -25⟩ := by
    decide
  have h0 : (cameraInit : Camera F32).cameraTarget.z = ⟨0, 0⟩ := by decide
  refine ⟨h7, hm, ?_, ?_⟩
  · rw [h7, hm]
    norm_num [F32.toRat]
  · rw [h7, h0]
    norm_num [F32.toRat]

/-! ## Model loader -/

section LoaderFacts

variable {α : Type}

/-- The copy loop, entered at index `i`, appends the positions from index `i`
on, in order, to what it was given. -/
theorem loadSTL_loop_eq (mesh : aiMesh α) :
    ∀ (k i : ℕ) (acc : List (Vertex α)), mesh.mNumVertices - i = k →
      loadSTL.loop mesh i acc = acc ++ (mesh.mVertices.drop i).map Vertex.ofPosition := by
  intro k
  induction k with
  | zero =>
      intro i acc hk
      have hle : mesh.mVertices.length ≤ i := by
        have := Nat.sub_eq_zero_iff_le.mp hk
        exact this
      rw [loadSTL.loop, dif_neg (by unfold aiMesh.mNumVertices; omega),
        List.drop_eq_nil_of_le hle]
      simp
  | succ n ih =>
      intro i acc hk
      have hlt : i < mesh.mNumVertices := by omega
      have hlt2 : i < mesh.mVertices.length := hlt
      rw [loadSTL.loop, dif_pos hlt]
      simp only
      rw [ih (i + 1) _ (by omega), List.drop_eq_getElem_cons hlt2]
      simp only [List.map_cons, List.append_assoc, List.singleton_append,
        List.get_eq_getElem]

theorem loadSTL_first_mesh (mesh : aiMesh α) (rest : List (aiMesh α)) :
    loadSTL (some { mMeshes := mesh :: rest })
      = ([], mesh.mVertices.map Vertex.ofPosition) := by
  simp [loadSTL, aiScene.HasMeshes, loadSTL_loop_eq mesh _ 0 [] rfl]

/-- C6. Loader result: with no scene, or a scene without meshes, `loadSTL`
returns the empty sequence (and one diagnostic line; being a total function it
always returns); with a scene whose first mesh is `mesh`, whatever meshes
follow, it returns the positions of `mesh` in order: the same length, and at
every index `i` where the mesh has the position `v` an entry with `x = v.x`,
`y = v.y` and `z = v.z` (and no entry where the mesh has none), so `3 * K`
entries when `mesh` has `3 * K` vertices (`K` unindexed triangles). -/
theorem loadSTL_result :
    (loadSTL (none : Option (aiScene α))).2 = [] ∧
    (loadSTL (some ({ mMeshes := [] } : aiScene α))).2 = [] ∧
    (∀ (mesh : aiMesh α) (rest : List (aiMesh α)),
      (loadSTL (some { mMeshes := mesh :: rest })).2
          = mesh.mVertices.map (fun v => ({ x := v.x, y := v.y, z := v.z } : Vertex α)) ∧
      (loadSTL (some { mMeshes := mesh :: rest })).2.length = mesh.mNumVertices ∧
      (∀ (i : ℕ) (v : aiVector3D α), mesh.mVertices[i]? = some v →
        ∃ w : Vertex α, (loadSTL (some { mMeshes := mesh :: rest })).2[i]? = some w ∧
          w.x = v.x ∧ w.y = v.y ∧ w.z = v.z) ∧
      (∀ i : ℕ, mesh.mVertices[i]? = none →
        (loadSTL (some { mMeshes := mesh :: rest })).2[i]? = none) ∧
      (∀ K : ℕ, mesh.mNumVertices = 3 * K →
          (loadSTL (some { mMeshes := mesh :: rest })).2.length = 3 * K)) := by
  refine ⟨rfl, rfl, fun mesh rest => ?_⟩
  rw [loadSTL_first_mesh]
  have hlen : (mesh.mVertices.map Vertex.ofPosition).length = mesh.mNumVertices := by
    simp [aiMesh.mNumVertices]
  refine ⟨?_, hlen, ?_, ?_, ?_⟩
  · rfl
  · intro i v hv
    refine ⟨Vertex.ofPosition v, ?_, rfl, rfl, rfl⟩
    simp only [List.getElem?_map, hv, Option.map_some']
  · intro i hv
    simp only [List.getElem?_map, hv, Option.map_none']
  · intro K hK
    rw [hlen]
    exact hK

end LoaderFacts

/-! ## Renderer -/

section RendererFacts

variable {α : Type}

theorem execAll_append (st : GLState α) (xs ys : List (GLCmd α)) :
    st.execAll (xs ++ ys) = (st.execAll xs).execAll ys := by
  simp [GLState.execAll, List.foldl_append]

theorem execAll_cons (st : GLState α) (c : GLCmd α) (cs : List (GLCmd α)) :
    st.execAll (c :: cs) = (st.exec c).execAll cs := rfl

theorem execAll_nil (st : GLState α) : st.execAll [] = st := rfl

theorem trace_cons (st : GLState α) (c : GLCmd α) (cs : List (GLCmd α)) :
    st.trace (c :: cs) = st :: (st.exec c).trace cs := rfl

/-- Inside an open group, the vertex loop appends the vertices, in order, to
the group and touches nothing else. -/
theorem execAll_submitVertices (vs : List (Vertex α)) :
    ∀ (st : GLState α) (acc : List (Vertex α)), st.current = some acc →
      st.execAll (submitVertices vs) = { st with current := some (acc ++ vs) } := by
  induction vs with
  | nil =>
      intro st acc h
      simp [submitVertices, GLState.execAll, ← h]
  | cons v rest ih =>
      intro st acc h
      have hstep : (st.exec (GLCmd.glVertex3f v.x v.y v.z)).current = some (acc ++ [v]) := by
        simp [GLState.exec, h]
      have := ih (st.exec (GLCmd.glVertex3f v.x v.y v.z)) (acc ++ [v]) hstep
      simp only [submitVertices, List.map_cons, execAll_cons] at this ⊢
      rw [this]
      simp [GLState.exec]

/-- A command other than `glDisable(GL_LIGHTING)` leaves an enabled lighting
bit enabled. -/
theorem exec_keeps_lighting (st : GLState α) (c : GLCmd α)
    (hc : c ≠ GLCmd.glDisable GLCap.GL_LIGHTING) (h : st.lighting = true) :
    (st.exec c).lighting = true := by
  cases c with
  | glPolygonMode mode => exact h
  | glEnable cap => simp only [GLState.exec]; split_ifs <;> simp [h]
  | glDisable cap =>
      have hcap : cap ≠ GLCap.GL_LIGHTING := fun hEq => hc (by rw [hEq])
      simp [GLState.exec, hcap, h]
  | glColor3f r g b => exact h
  | glBegin => exact h
  | glVertex3f x y z => exact h
  | glEnd =>
      simp only [GLState.exec]
      cases st.current <;> simp [h]

/-- Lighting stays enabled through a command list without
`glDisable(GL_LIGHTING)`. -/
theorem trace_keeps_lighting (cmds : List (GLCmd α))
    (hc : GLCmd.glDisable GLCap.GL_LIGHTING ∉ cmds) :
    ∀ st : GLState α, st.lighting = true →
      ∀ st2 ∈ st.trace cmds, st2.lighting = true := by
  induction cmds with
  | nil =>
      intro st h st2 hmem
      simp only [GLState.trace, List.mem_singleton] at hmem
      rw [hmem]; exact h
  | cons c rest ih =>
      intro st h st2 hmem
      simp only [GLState.trace, List.mem_cons] at hmem
      rcases hmem with hEq | hmem
      · rw [hEq]; exact h
      · have hne : c ≠ GLCmd.glDisable GLCap.GL_LIGHTING := fun hEq =>
          hc (by rw [hEq]; exact List.mem_cons_self _ _)
        have hrest : GLCmd.glDisable GLCap.GL_LIGHTING ∉ rest := fun hin =>
          hc (List.mem_cons_of_mem _ hin)
        exact ih hrest (st.exec c) (exec_keeps_lighting st c hne h) st2 hmem

theorem submitVertices_no_disable (vs : List (Vertex α)) :
    GLCmd.glDisable GLCap.GL_LIGHTING ∉ submitVertices vs := by
  simp [submitVertices]

/-- One `glBegin` ... `glEnd` group around the vertex loop completes one
submission of the vertices, made under the pipeline state of the moment. -/
theorem exec_group (vs : List (Vertex α)) (st : GLState α) :
    (st.exec GLCmd.glBegin).execAll (submitVertices vs ++ [GLCmd.glEnd]) =
      { st with
        current := none
        submitted := st.submitted ++
          [{ polygonMode := st.polygonMode, lighting := st.lighting,
             color := st.color, vertices := vs }] } := by
  rw [execAll_append, execAll_submitVertices vs _ [] rfl]
  simp [GLState.exec, GLState.execAll]

variable [OfScientific α]

/-- The pipeline state `drawModel` leaves in mode `SHADED`. -/
theorem drawModel_shaded_exec (vs : List (Vertex α)) (st : GLState α) :
    st.execAll (drawModel vs RenderMode.SHADED) =
      { lighting := true
        polygonMode := GLPolygonMode.GL_FILL
        color := ⟨0.8, 0.8, 0.8⟩
        current := none
        submitted := st.submitted ++
          [{ polygonMode := GLPolygonMode.GL_FILL, lighting := true,
             color := ⟨0.8, 0.8, 0.8⟩, vertices := vs }] } := by
  simp only [drawModel, reduceCtorEq, or_false, if_true, if_false,
    List.append_nil, List.cons_append, List.nil_append, execAll_cons]
  rw [exec_group]
  simp [GLState.exec]

/-- The pipeline state `drawModel` leaves in mode `BOTH`. -/
theorem drawModel_both_exec (vs : List (Vertex α)) (st : GLState α) :
    st.execAll (drawModel vs RenderMode.BOTH) =
      { lighting := false
        polygonMode := GLPolygonMode.GL_FILL
        color := ⟨0.1, 1.0, 0.1⟩
        current := none
        submitted := st.submitted ++
          [{ polygonMode := GLPolygonMode.GL_FILL, lighting := true,
             color := ⟨0.8, 0.8, 0.8⟩, vertices := vs },
           { polygonMode := GLPolygonMode.GL_LINE, lighting := false,
             color := ⟨0.1, 1.0, 0.1⟩, vertices := vs }] } := by
  have hsplit : submitVertices vs ++ [GLCmd.glEnd, GLCmd.glPolygonMode GLPolygonMode.GL_FILL]
      = (submitVertices vs ++ [GLCmd.glEnd]) ++ [GLCmd.glPolygonMode GLPolygonMode.GL_FILL] := by
    simp
  simp only [drawModel, reduceCtorEq, or_true, if_true,
    List.cons_append, List.nil_append, execAll_cons]
  rw [execAll_append, exec_group]
  simp only [List.cons_append, List.nil_append, execAll_cons]
  rw [hsplit, execAll_append, exec_group]
  simp [GLState.exec, GLState.execAll]

theorem drawModel_shaded_no_disable (vs : List (Vertex α)) :
    GLCmd.glDisable GLCap.GL_LIGHTING ∉ drawModel vs RenderMode.SHADED := by
  simp [drawModel, submitVertices]

/-- C5. Render-mode coverage, from any pipeline state `st`: in mode `BOTH`,
`drawModel` adds exactly two triangle-list submissions, the first filled (made
with lighting on), the second in line mode (made with lighting off), each with
exactly the vertices `vs` in order, and returns with lighting disabled and
polygon mode filled; in mode `SHADED` it adds exactly one submission, filled,
of `vs`, none in line mode, it issues no `glDisable(GL_LIGHTING)`, lighting is
enabled from its `glEnable(GL_LIGHTING)` on (so at the submission and on
return), and at every point of the call when it was enabled on entry. -/
theorem render_mode_coverage (vs : List (Vertex α)) (st : GLState α) :
    (st.execAll (drawModel vs RenderMode.BOTH)).submitted =
      st.submitted ++
        [{ polygonMode := GLPolygonMode.GL_FILL, lighting := true,
           color := ⟨0.8, 0.8, 0.8⟩, vertices := vs },
         { polygonMode := GLPolygonMode.GL_LINE, lighting := false,
           color := ⟨0.1, 1.0, 0.1⟩, vertices := vs }] ∧
    (st.execAll (drawModel vs RenderMode.BOTH)).lighting = false ∧
    (st.execAll (drawModel vs RenderMode.BOTH)).polygonMode = GLPolygonMode.GL_FILL ∧
    (st.execAll (drawModel vs RenderMode.SHADED)).submitted =
      st.submitted ++
        [{ polygonMode := GLPolygonMode.GL_FILL, lighting := true,
           color := ⟨0.8, 0.8, 0.8⟩, vertices := vs }] ∧
    GLCmd.glDisable GLCap.GL_LIGHTING ∉ drawModel vs RenderMode.SHADED ∧
    (st.execAll (drawModel vs RenderMode.SHADED)).lighting = true ∧
    (∀ st2 ∈ (st.trace (drawModel vs RenderMode.SHADED)).drop 2, st2.lighting = true) ∧
    (st.lighting = true →
      ∀ st2 ∈ st.trace (drawModel vs RenderMode.SHADED), st2.lighting = true) := by
  refine ⟨?_, ?_, ?_, ?_, drawModel_shaded_no_disable vs, ?_, ?_, ?_⟩
  · rw [drawModel_both_exec]
  · rw [drawModel_both_exec]
  · rw [drawModel_both_exec]
  · rw [drawModel_shaded_exec]
  · rw [drawModel_shaded_exec]
  · have hno := drawModel_shaded_no_disable vs
    simp only [drawModel, reduceCtorEq, or_false, or_true, if_true, if_false, true_or,
      List.append_nil, List.cons_append, List.nil_append] at hno ⊢
    rw [trace_cons, trace_cons, List.drop_succ_cons, List.drop_succ_cons, List.drop_zero]
    have hl : ((st.exec (GLCmd.glPolygonMode GLPolygonMode.GL_FILL)).exec
        (GLCmd.glEnable GLCap.GL_LIGHTING)).lighting = true := rfl
    refine trace_keeps_lighting _ ?_ _ hl
    intro hin
    exact hno (List.mem_cons_of_mem _ (List.mem_cons_of_mem _ hin))
  · intro h
    exact trace_keeps_lighting _ (drawModel_shaded_no_disable vs) st h

end RendererFacts

/-! ## The "Load STL" menu item -/

section LoadCommandFacts

variable {α : Type}

/-- C7, as the code has it. Every "Load STL" command, whether the load fails
or not, replaces the held mesh by what `loadSTL` returns and sets `loaded`;
the render mode stays.  So a failed load (no scene, or no meshes) leaves the
empty sequence in place of the mesh held before, and a load whose scene has a
first mesh leaves the positions of that mesh. -/
theorem load_command_replaces_mesh (app : App α) (scene : Option (aiScene α)) :
    menuLoadSTL scene app =
      { model := (loadSTL scene).2, loaded := true, renderMode := app.renderMode } ∧
    ((scene = none ∨ scene = some { mMeshes := [] }) →
      (menuLoadSTL scene app).model = []) ∧
    (∀ (mesh : aiMesh α) (rest : List (aiMesh α)), scene = some { mMeshes := mesh :: rest } →
      (menuLoadSTL scene app).model = mesh.mVertices.map Vertex.ofPosition) := by
  refine ⟨rfl, ?_, ?_⟩
  · intro h
    rcases h with h | h <;> rw [h] <;> rfl
  · intro mesh rest h
    rw [h]
    show (loadSTL (some { mMeshes := mesh :: rest })).2 = _
    rw [loadSTL_first_mesh]

end LoadCommandFacts

/-- C7, as the claim has it, fails: it is not so that a failed load leaves a
held non-empty mesh untouched.  With three vertices held and an import that
yields no scene, the command leaves the empty sequence. -/
theorem failed_load_discards_mesh :
    ¬ ∀ (app : App ℚ) (scene : Option (aiScene ℚ)),
        app.model ≠ [] → (scene = none ∨ scene = some { mMeshes := [] }) →
        (menuLoadSTL scene app).model = app.model := by
  intro h
  have h1 := h { model := [⟨1, 2, 3⟩, ⟨4, 5, 6⟩, ⟨7, 8, 9⟩], loaded := true,
                 renderMode := RenderMode.SHADED } none (by simp) (Or.inl rfl)
  have h2 : (menuLoadSTL (none : Option (aiScene ℚ))
      { model := [⟨1, 2, 3⟩, ⟨4, 5, 6⟩, ⟨7, 8, 9⟩], loaded := true,
        renderMode := RenderMode.SHADED }).model = [] := rfl
  rw [h2] at h1
  exact List.noConfusion h1

/-! ## View computation -/

/-- C8. View derivation, over the reals: with yaw 0, pitch 0, distance 5 and
target `(0, 0, 0)` (whatever the drag bookkeeping is), the look direction of
the view step is `(1, 0, 0)` and the eye `cameraTarget - direction * 5` is
`(-5, 0, 0)`. -/
theorem view_derivation (lastX lastY : ℝ) (rotating : Bool) :
    viewDirection Real.cos Real.sin Real.pi
        { cameraDistance := 5, cameraYaw := 0, cameraPitch := 0, lastX := lastX,
          lastY := lastY, rotating := rotating, cameraTarget := ⟨0, 0, 0⟩ }
      = ⟨1, 0, 0⟩ ∧
    cameraPos Real.cos Real.sin Real.pi
        { cameraDistance := 5, cameraYaw := 0, cameraPitch := 0, lastX := lastX,
          lastY := lastY, rotating := rotating, cameraTarget := ⟨0, 0, 0⟩ }
      = ⟨-5, 0, 0⟩ := by
  have hd : viewDirection Real.cos Real.sin Real.pi
      { cameraDistance := 5, cameraYaw := 0, cameraPitch := 0, lastX := lastX,
        lastY := lastY, rotating := rotating, cameraTarget := ⟨0, 0, 0⟩ }
      = ⟨1, 0, 0⟩ := by
    simp [viewDirection, radians]
  refine ⟨hd, ?_⟩
  rw [cameraPos, hd]
  simp [Vec3.sub, Vec3.scale]

/-- The view step on the initial camera state: direction `(1, 0, 0)`, eye
`(-5, 0, 0)`. -/
theorem view_derivation_init :
    viewDirection Real.cos Real.sin Real.pi (cameraInit : Camera ℝ) = ⟨1, 0, 0⟩ ∧
    cameraPos Real.cos Real.sin Real.pi (cameraInit : Camera ℝ) = ⟨-5, 0, 0⟩ := by
  have h := view_derivation 0 0 false
  have hs : (cameraInit : Camera ℝ) =
      { cameraDistance := 5, cameraYaw := 0, cameraPitch := 0, lastX := 0,
        lastY := 0, rotating := false, cameraTarget := ⟨0, 0, 0⟩ } := by
    simp only [cameraInit]
    norm_num
  rw [hs]
  exact h

/-- Within the pitch bound the cosine of the pitch angle is positive. -/
theorem cos_pitch_pos (s : Camera ℝ) (h : PitchOk s) :
    0 < Real.cos (radians Real.pi s.cameraPitch) := by
  obtain ⟨hlo, hhi⟩ := h
  have hpi := Real.pi_pos
  apply Real.cos_pos_of_mem_Ioo
  constructor
  · unfold radians
    nlinarith
  · unfold radians
    nlinarith

/-- The look direction is a unit vector, whatever the angles. -/
theorem viewDirection_unit (s : Camera ℝ) :
    (viewDirection Real.cos Real.sin Real.pi s).dot
      (viewDirection Real.cos Real.sin Real.pi s) = 1 := by
  have hy := Real.sin_sq_add_cos_sq (radians Real.pi s.cameraYaw)
  have hp := Real.sin_sq_add_cos_sq (radians Real.pi s.cameraPitch)
  simp only [viewDirection, Vec3.dot]
  nlinarith [hy, hp]

/-- The squared length of the horizontal part of the look direction. -/
theorem viewDirection_horizontal (s : Camera ℝ) :
    (viewDirection Real.cos Real.sin Real.pi s).x ^ 2 +
      (viewDirection Real.cos Real.sin Real.pi s).z ^ 2
      = Real.cos (radians Real.pi s.cameraPitch) ^ 2 := by
  have hy := Real.sin_sq_add_cos_sq (radians Real.pi s.cameraYaw)
  simp only [viewDirection]
  nlinarith [hy]

/-- From the eye to the target is the look direction times the distance. -/
theorem target_sub_cameraPos (s : Camera ℝ) :
    s.cameraTarget.sub (cameraPos Real.cos Real.sin Real.pi s)
      = (viewDirection Real.cos Real.sin Real.pi s).scale s.cameraDistance := by
  simp [cameraPos, Vec3.sub, Vec3.scale]

/-- The squared length of the eye-to-target vector is the squared distance. -/
theorem target_sub_cameraPos_dot (s : Camera ℝ) :
    (s.cameraTarget.sub (cameraPos Real.cos Real.sin Real.pi s)).dot
      (s.cameraTarget.sub (cameraPos Real.cos Real.sin Real.pi s))
      = s.cameraDistance ^ 2 := by
  have hu := viewDirection_unit s
  rw [target_sub_cameraPos]
  simp only [Vec3.dot, Vec3.scale] at hu ⊢
  nlinarith [hu]

/-- Within the distance bound, the first vector of the look-at construction
is the look direction. -/
theorem lookAtF_eq_viewDirection (s : Camera ℝ) (hd : DistanceOk s) :
    lookAtF Real.sqrt (cameraPos Real.cos Real.sin Real.pi s) s.cameraTarget
      = viewDirection Real.cos Real.sin Real.pi s := by
  have hpos : (0 : ℝ) < s.cameraDistance := lt_of_lt_of_le one_pos hd
  have hne : s.cameraDistance ≠ 0 := ne_of_gt hpos
  unfold lookAtF Vec3.normalize
  rw [target_sub_cameraPos_dot, Real.sqrt_sq hpos.le, target_sub_cameraPos]
  generalize viewDirection Real.cos Real.sin Real.pi s = d
  cases d with
  | mk x y z =>
      simp only [Vec3.scale]
      congr 1 <;> field_simp

/-- The vector the look-at construction normalises second, for the up vector
of the program: its squared length is the squared cosine of the pitch. -/
theorem lookAtSide_dot (s : Camera ℝ) (hd : DistanceOk s) :
    (lookAtSide Real.sqrt (cameraPos Real.cos Real.sin Real.pi s) s.cameraTarget
        upVector).dot
      (lookAtSide Real.sqrt (cameraPos Real.cos Real.sin Real.pi s) s.cameraTarget
        upVector)
      = Real.cos (radians Real.pi s.cameraPitch) ^ 2 := by
  have hh := viewDirection_horizontal s
  unfold lookAtSide
  rw [lookAtF_eq_viewDirection s hd]
  simp only [Vec3.cross, Vec3.dot, upVector] at hh ⊢
  norm_num
  nlinarith [hh]

/-- What C10 says of one camera state, from the two clamp bounds. -/
theorem view_nondegenerate (s : Camera ℝ) (hp : PitchOk s) (hd : DistanceOk s) :
    (viewDirection Real.cos Real.sin Real.pi s).dot
      (viewDirection Real.cos Real.sin Real.pi s) = 1 ∧
    Real.sqrt ((viewDirection Real.cos Real.sin Real.pi s).x ^ 2 +
      (viewDirection Real.cos Real.sin Real.pi s).z ^ 2)
      = Real.cos (radians Real.pi s.cameraPitch) ∧
    0 < Real.cos (radians Real.pi s.cameraPitch) ∧
    (viewDirection Real.cos Real.sin Real.pi s).cross upVector ≠ ⟨0, 0, 0⟩ ∧
    Real.sqrt ((s.cameraTarget.sub (cameraPos Real.cos Real.sin Real.pi s)).dot
      (s.cameraTarget.sub (cameraPos Real.cos Real.sin Real.pi s))) = s.cameraDistance ∧
    1 ≤ s.cameraDistance ∧
    cameraPos Real.cos Real.sin Real.pi s ≠ s.cameraTarget ∧
    Real.sqrt ((s.cameraTarget.sub (cameraPos Real.cos Real.sin Real.pi s)).dot
      (s.cameraTarget.sub (cameraPos Real.cos Real.sin Real.pi s))) ≠ 0 ∧
    Real.sqrt ((lookAtSide Real.sqrt (cameraPos Real.cos Real.sin Real.pi s)
        s.cameraTarget upVector).dot
      (lookAtSide Real.sqrt (cameraPos Real.cos Real.sin Real.pi s)
        s.cameraTarget upVector)) ≠ 0 := by
  have hcos := cos_pitch_pos s hp
  have hpos : (0 : ℝ) < s.cameraDistance := lt_of_lt_of_le one_pos hd
  have hlen : Real.sqrt ((s.cameraTarget.sub (cameraPos Real.cos Real.sin Real.pi s)).dot
      (s.cameraTarget.sub (cameraPos Real.cos Real.sin Real.pi s))) = s.cameraDistance := by
    rw [target_sub_cameraPos_dot, Real.sqrt_sq hpos.le]
  refine ⟨viewDirection_unit s, ?_, hcos, ?_, hlen, hd, ?_, ?_, ?_⟩
  · rw [viewDirection_horizontal, Real.sqrt_sq hcos.le]
  · intro hzero
    have hh := viewDirection_horizontal s
    have hx : (viewDirection Real.cos Real.sin Real.pi s).x = 0 := by
      have := congrArg Vec3.z hzero
      norm_num [Vec3.cross, upVector] at this
      linarith
    have hz : (viewDirection Real.cos Real.sin Real.pi s).z = 0 := by
      have := congrArg Vec3.x hzero
      norm_num [Vec3.cross, upVector] at this
      linarith
    rw [hx, hz] at hh
    have : Real.cos (radians Real.pi s.cameraPitch) ^ 2 = 0 := by linarith
    have hc0 : Real.cos (radians Real.pi s.cameraPitch) = 0 := by
      simpa using this
    exact absurd hc0 (ne_of_gt hcos)
  · intro heq
    have h0 := target_sub_cameraPos_dot s
    rw [heq] at h0
    simp only [Vec3.sub, Vec3.dot, sub_self, mul_zero, add_zero] at h0
    have : s.cameraDistance = 0 := by
      have h2 : s.cameraDistance ^ 2 = 0 := h0.symm
      simpa using h2
    exact absurd this (ne_of_gt hpos)
  · rw [hlen]
    exact ne_of_gt hpos
  · rw [lookAtSide_dot s hd, Real.sqrt_sq hcos.le]
    exact ne_of_gt hcos

/-- C10. The look-at inputs are never degenerate, over the reals: in every
camera state reached from the initial state by a finite sequence of events,
the look direction `d` of the view step is a unit vector, its horizontal part
has length `cos pitchRad > 0`, so `d` is not parallel to the up vector
`(0, 1, 0)` (their cross product is not zero); the eye is at distance exactly
`cameraDistance ≥ 1` from the target, so it is not the target; and each of the
two lengths the look-at construction divides by, that of `center - eye` and
that of `cross(f, up)`, is not zero. -/
theorem look_at_never_degenerate (evs : List (Event ℝ)) :
    (viewDirection Real.cos Real.sin Real.pi (run cameraInit evs)).dot
      (viewDirection Real.cos Real.sin Real.pi (run cameraInit evs)) = 1 ∧
    Real.sqrt ((viewDirection Real.cos Real.sin Real.pi (run cameraInit evs)).x ^ 2 +
      (viewDirection Real.cos Real.sin Real.pi (run cameraInit evs)).z ^ 2)
      = Real.cos (radians Real.pi (run cameraInit evs).cameraPitch) ∧
    0 < Real.cos (radians Real.pi (run cameraInit evs).cameraPitch) ∧
    (viewDirection Real.cos Real.sin Real.pi (run cameraInit evs)).cross upVector
      ≠ ⟨0, 0, 0⟩ ∧
    Real.sqrt (((run cameraInit evs).cameraTarget.sub
        (cameraPos Real.cos Real.sin Real.pi (run cameraInit evs))).dot
      ((run cameraInit evs).cameraTarget.sub
        (cameraPos Real.cos Real.sin Real.pi (run cameraInit evs))))
      = (run cameraInit evs).cameraDistance ∧
    1 ≤ (run cameraInit evs).cameraDistance ∧
    cameraPos Real.cos Real.sin Real.pi (run cameraInit evs)
      ≠ (run cameraInit evs).cameraTarget ∧
    Real.sqrt (((run cameraInit evs).cameraTarget.sub
        (cameraPos Real.cos Real.sin Real.pi (run cameraInit evs))).dot
      ((run cameraInit evs).cameraTarget.sub
        (cameraPos Real.cos Real.sin Real.pi (run cameraInit evs)))) ≠ 0 ∧
    Real.sqrt ((lookAtSide Real.sqrt (cameraPos Real.cos Real.sin Real.pi (run cameraInit evs))
        (run cameraInit evs).cameraTarget upVector).dot
      (lookAtSide Real.sqrt (cameraPos Real.cos Real.sin Real.pi (run cameraInit evs))
        (run cameraInit evs).cameraTarget upVector)) ≠ 0 := by
  have hok := @run_ok ℝ _ evs
  exact view_nondegenerate (run cameraInit evs) hok.1 hok.2

/-! ## The theorems at concrete inputs -/

/-- A drag whose raw pitch would be 500 ends at 89, one whose raw pitch would
be -500 ends at -89. -/
theorem pitch_clamp_at_500 :
    (cameraInit : Camera ℚ).cameraPitch + (5000 / 3 - 0) * 0.3 = 500 ∧
    (run (cameraInit : Camera ℚ)
      [Event.mouseButton 0 1 0 0 0, Event.cursorPos 0 (5000 / 3)]).cameraPitch = 89 ∧
    (run (cameraInit : Camera ℚ)
      [Event.mouseButton 0 1 0 0 0, Event.cursorPos 0 (-5000 / 3)]).cameraPitch = -89 := by
  refine ⟨?_, ?_, ?_⟩
  · norm_num [cameraInit]
  · norm_num [run, step, mouse_button_callback, cursor_position_callback, cameraInit,
      stdMax, stdMin, GLFW_MOUSE_BUTTON_LEFT, GLFW_PRESS]
  · norm_num [run, step, mouse_button_callback, cursor_position_callback, cameraInit,
      stdMax, stdMin, GLFW_MOUSE_BUTTON_LEFT, GLFW_PRESS]

theorem pitch_clamp_invariant_witness :
    (-89 ≤ (run (cameraInit : Camera ℚ) (List.take 2
        [Event.mouseButton 0 1 0 0 0, Event.cursorPos 0 (5000 / 3)])).cameraPitch ∧
      (run (cameraInit : Camera ℚ) (List.take 2
        [Event.mouseButton 0 1 0 0 0, Event.cursorPos 0 (5000 / 3)])).cameraPitch ≤ 89) ∧
    (-89 ≤ (cursor_position_callback
        ({ cameraDistance := 5, cameraYaw := 0, cameraPitch := 0, lastX := 0, lastY := 0,
           rotating := true, cameraTarget := ⟨0, 0, 0⟩ } : Camera ℚ)
        0 (-5000 / 3)).cameraPitch ∧
      (cursor_position_callback
        ({ cameraDistance := 5, cameraYaw := 0, cameraPitch := 0, lastX := 0, lastY := 0,
           rotating := true, cameraTarget := ⟨0, 0, 0⟩ } : Camera ℚ)
        0 (-5000 / 3)).cameraPitch ≤ 89) :=
  ⟨(@pitch_clamp_invariant ℚ _).1 _ 2, (@pitch_clamp_invariant ℚ _).2 _ 0 (-5000 / 3) rfl⟩

/-- A scroll of 1000 notches towards the model stops at distance 1; a scroll
of 10 notches away from the initial distance 5 gives 10. -/
theorem distance_clamp_at_1000 :
    (run (cameraInit : Camera ℚ) [Event.scroll 0 1000]).cameraDistance = 1 ∧
    (run (cameraInit : Camera ℚ) [Event.scroll 0 (-10)]).cameraDistance = 10 := by
  constructor <;>
    norm_num [run, step, scroll_callback, cameraInit, stdMax]

theorem distance_clamp_invariant_witness :
    1 ≤ (run (cameraInit : Camera ℚ) (List.take 1 [Event.scroll 0 1000])).cameraDistance ∧
    ∃ evs : List (Event ℚ),
      (∀ e ∈ evs, e.isScroll = true) ∧ 1000 < (run cameraInit evs).cameraDistance :=
  ⟨(@distance_clamp_invariant ℚ _).1 _ 1, (@distance_clamp_invariant ℚ _).2.2 1000⟩

theorem cursor_position_dragging_witness :
    cursor_position_callback
        ({ cameraDistance := 5, cameraYaw := 0, cameraPitch := 0, lastX := 0, lastY := 0,
           rotating := true, cameraTarget := ⟨0, 0, 0⟩ } : Camera ℚ) 10 20
      = { cameraDistance := 5, cameraYaw := 3, cameraPitch := 6, lastX := 10, lastY := 20,
          rotating := true, cameraTarget := ⟨0, 0, 0⟩ } := by
  rw [cursor_position_dragging _ 10 20 rfl]
  norm_num

theorem drag_gating_witness :
    cursor_position_callback (cameraInit : Camera ℚ) 10 20 = cameraInit :=
  drag_gating.1 (cameraInit : Camera ℚ) 10 20 rfl

theorem pan_forward_accumulates_witness :
    (panStep GLFW_PRESS GLFW_RELEASE GLFW_RELEASE GLFW_RELEASE)^[3] (cameraInit : Camera ℚ)
      = { cameraDistance := 5, cameraYaw := 0, cameraPitch := 0, lastX := 0, lastY := 0,
          rotating := false, cameraTarget := ⟨0, 0, -3 / 20⟩ } := by
  rw [(pan_forward_accumulates 3 GLFW_RELEASE GLFW_RELEASE GLFW_RELEASE
    (by decide) (by decide) (by decide)).1 ℚ cameraInit]
  norm_num [cameraInit]

theorem render_mode_coverage_witness :
    ∀ st2 ∈ GLState.trace
        ({ lighting := true, polygonMode := GLPolygonMode.GL_FILL, color := ⟨1, 1, 1⟩,
           current := none, submitted := [] } : GLState ℚ)
        (drawModel [⟨0, 0, 0⟩, ⟨1, 0, 0⟩, ⟨0, 1, 0⟩] RenderMode.SHADED),
      st2.lighting = true :=
  (@render_mode_coverage ℚ _ [⟨0, 0, 0⟩, ⟨1, 0, 0⟩, ⟨0, 1, 0⟩]
    { lighting := true, polygonMode := GLPolygonMode.GL_FILL, color := ⟨1, 1, 1⟩,
      current := none, submitted := [] }).2.2.2.2.2.2.2 rfl

/-- One triangle drawn in mode `WIREFRAME` from the pipeline state the program
sets up: one submission, in line mode, of the three vertices. -/
theorem drawModel_wireframe_one_triangle :
    (GLState.execAll
        ({ lighting := true, polygonMode := GLPolygonMode.GL_FILL, color := ⟨1, 1, 1⟩,
           current := none, submitted := [] } : GLState ℚ)
        (drawModel [⟨0, 0, 0⟩, ⟨1, 0, 0⟩, ⟨0, 1, 0⟩] RenderMode.WIREFRAME)).submitted
      = [{ polygonMode := GLPolygonMode.GL_LINE, lighting := false,
           color := ⟨0.1, 1.0, 0.1⟩,
           vertices := [⟨0, 0, 0⟩, ⟨1, 0, 0⟩, ⟨0, 1, 0⟩] }] := by
  simp [drawModel, submitVertices, GLState.execAll, GLState.exec]

theorem loadSTL_result_witness :
    (∃ w : Vertex ℚ,
      (loadSTL (some { mMeshes :=
        [({ mVertices := [⟨1, 2, 3⟩, ⟨4, 5, 6⟩, ⟨7, 8, 9⟩] } : aiMesh ℚ),
         { mVertices := [⟨9, 9, 9⟩] }] })).2[1]? = some w ∧
      w.x = 4 ∧ w.y = 5 ∧ w.z = 6) ∧
    (loadSTL (some { mMeshes :=
        [({ mVertices := [⟨1, 2, 3⟩, ⟨4, 5, 6⟩, ⟨7, 8, 9⟩] } : aiMesh ℚ),
         { mVertices := [⟨9, 9, 9⟩] }] })).2.length = 3 * 1 :=
  ⟨((@loadSTL_result ℚ).2.2 { mVertices := [⟨1, 2, 3⟩, ⟨4, 5, 6⟩, ⟨7, 8, 9⟩] }
      [{ mVertices := [⟨9, 9, 9⟩] }]).2.2.1 1 ⟨4, 5, 6⟩ rfl,
    ((@loadSTL_result ℚ).2.2 { mVertices := [⟨1, 2, 3⟩, ⟨4, 5, 6⟩, ⟨7, 8, 9⟩] }
      [{ mVertices := [⟨9, 9, 9⟩] }]).2.2.2.2 1 rfl⟩

/-- The loader on a scene of two meshes: the three positions of the first,
coordinate for coordinate, and nothing of the second. -/
theorem loadSTL_two_meshes :
    loadSTL (some { mMeshes :=
        [({ mVertices := [⟨1, 2, 3⟩, ⟨4, 5, 6⟩, ⟨7, 8, 9⟩] } : aiMesh ℚ),
         { mVertices := [⟨9, 9, 9⟩] }] })
      = ([], [⟨1, 2, 3⟩, ⟨4, 5, 6⟩, ⟨7, 8, 9⟩]) := by
  rw [loadSTL_first_mesh]
  rfl

theorem load_command_replaces_mesh_witness :
    (menuLoadSTL (none : Option (aiScene ℚ))
      { model := [⟨1, 2, 3⟩, ⟨4, 5, 6⟩, ⟨7, 8, 9⟩], loaded := true,
        renderMode := RenderMode.SHADED }).model = [] :=
  (@load_command_replaces_mesh ℚ
    { model := [⟨1, 2, 3⟩, ⟨4, 5, 6⟩, ⟨7, 8, 9⟩], loaded := true,
      renderMode := RenderMode.SHADED } none).2.1 (Or.inl rfl)

end StlViewer
